import Mathlib

/-!
Shallow embedding of the `gop run` command driver (`cmd/internal/run/run.go`).

The driver sequences a parse → lower → write → execute pipeline.  External
collaborators (the parser, the lowering component, the serializer, the host
toolchain subprocess, the absolute-path resolver and the failure modes of the
operating system) are modelled as oracle fields of an `Env` record; the
filesystem is modelled explicitly as a value of type `FS` threaded through the
run.  The observable behaviour of one invocation is a list of `Event`s (in
execution order), a terminal `Outcome`, and the final filesystem.
-/

set_option autoImplicit false

/-! ### Path helpers (model of the used fragment of Go `path/filepath`) -/

/-- Collapse every run of consecutive slashes in a character list to a single
slash (the fragment of Go `filepath.Clean` exercised by this driver, whose
inputs contain no `.` or `..` elements). -/
def collapse : List Char → List Char
  | [] => []
  | [c] => [c]
  | a :: b :: rest =>
    if a == '/' && b == '/' then collapse (b :: rest)
    else a :: collapse (b :: rest)

/-- Split a character list after its final slash: first component is
everything up to and including the last `/` (empty if there is none), second
component is the remainder. -/
def splitLastSlash (l : List Char) : List Char × List Char :=
  let r := l.reverse
  ((r.dropWhile (· != '/')).reverse, (r.takeWhile (· != '/')).reverse)

/-- Model of Go `filepath.Split`: returns `(dir, file)` where `dir` keeps the
trailing separator. -/
def filepathSplit (p : String) : String × String :=
  let d := splitLastSlash p.data
  (⟨d.1⟩, ⟨d.2⟩)

/-- Drop every trailing slash of a character list. -/
def dropTrailingSlashes (l : List Char) : List Char :=
  (l.reverse.dropWhile (· == '/')).reverse

/-- Model of Go `filepath.Dir` on cleaned paths: the directory portion without
its trailing separator, `"."` for separator-free paths and `"/"` for entries
of the root directory. -/
def filepathDir (p : String) : String :=
  let d := (splitLastSlash p.data).1
  let d1 := dropTrailingSlashes d
  if d1.isEmpty then (if d.isEmpty then "." else "/") else ⟨d1⟩

/-- Interleave path elements with single slashes. -/
def joinSlash : List String → String
  | [] => ""
  | [s] => s
  | s :: rest => s ++ "/" ++ joinSlash rest

/-- Model of Go `filepath.Join` on the inputs of this driver: drop empty
elements, join with `/`, collapse duplicate separators. -/
def filepathJoin (parts : List String) : String :=
  ⟨collapse (joinSlash (parts.filter (fun s => !s.data.isEmpty))).data⟩

/-- All ancestor paths recorded while scanning a path left to right; each
slash boundary and the end of the path record the prefix accumulated so far.
Auxiliary for `ancestorsOf`. -/
def ancestorsAux (acc : List Char) : List Char → List (List Char)
  | [] => if acc.isEmpty then [] else [acc]
  | c :: rest =>
    if c == '/' then (if acc.isEmpty then [] else [acc]) ++ ancestorsAux (acc ++ [c]) rest
    else ancestorsAux (acc ++ [c]) rest

/-- The chain of directories `os.MkdirAll` creates for a path, outermost
first: for `"/a/b"` this is `["/a", "/a/b"]`. -/
def ancestorsOf (dir : String) : List String :=
  (ancestorsAux [] dir.data).map (fun l => ⟨l⟩)

/-! ### Data model -/

/-- Opaque token for a parsed package AST (`*ast.Package`). -/
abbrev Pkg := Nat

/-- Opaque token for a lowered native package (`*gox.Package`). -/
abbrev Artifact := Nat

/-- The parser result: a mapping from package name to parsed package
(`map[string]*ast.Package`), modelled as an association list. -/
abbrev SourceSet := List (String × Pkg)

/-- Go map indexing `pkgs["main"]`: `none` models the `nil` returned for an
absent key. -/
def sourceSetLookup (ss : SourceSet) (name : String) : Option Pkg :=
  match ss.find? (fun p => p.1 == name) with
  | some p => some p.2
  | none => none

/-- The modelled filesystem: the set of existing directories and the files on
disk with their contents. -/
structure FS where
  dirs : List String
  files : List (String × Artifact)
  deriving DecidableEq

/-- Result of the host-toolchain subprocess (`exec.Cmd.Run`): the child ran
and exited non-zero carrying its stderr bytes (`*exec.ExitError`), some other
failure (toolchain missing, could not start), or success. -/
inductive RunResult where
  | exitError (stderr : String)
  | otherError (msg : String)
  | ok
  deriving DecidableEq

/-- Command-line flags of `gop run`. -/
structure Flags where
  asm : Bool
  quiet : Bool
  debug : Bool
  prof : Bool
  deriving DecidableEq

/-- External collaborators of the driver, as oracles.
`absPath` models `filepath.Abs` (a resolved path plus a possible error);
`parseDir`/`parseFile` the external parser; `lower` the lowering component on
a present main package; `mkdirFail`/`writeFail` inject the possible failures
of `os.MkdirAll` and of the external serializer; `run` models the host
toolchain invocation, given the working directory and the artifact path. -/
structure Env where
  absPath : String → String × Option String
  parseDir : String → Except String SourceSet
  parseFile : String → Except String SourceSet
  lower : Pkg → Except String Artifact
  mkdirFail : String → Option String
  writeFail : String → Option String
  run : String → String → RunResult

/-- Observable events of one invocation, in execution order. -/
inductive Event where
  | printUsage
  | setLogLevel (level : Nat)
  | goxSetDebug
  | parseDirEv (path : String)
  | parseFileEv (path : String)
  | lowerEv
  | mkdirEv (dir : String)
  | writeEv (path : String)
  | execEv (path : String)
  | stderrWrite (bytes : String)
  deriving DecidableEq

/-- Terminal state of one invocation: returned after printing usage, aborted
by `log.Fatalln`, aborted by a `panic` on an unimplemented feature, or
completed normally. -/
inductive Outcome where
  | usageReturn
  | fatal (msg : String)
  | unsupported (msg : String)
  | ok
  deriving DecidableEq

/-- The full observable result of one invocation. -/
structure RunOut where
  events : List Event
  outcome : Outcome
  fs : FS
  deriving DecidableEq

/-! ### The driver, translated from `run.go` -/

/-- The log level `0x7000` passed by the `-quiet` branch; it exceeds every
diagnostic level of the external logging facility, so it suppresses all
compiling-stage log output. -/
def suppressLevel : Nat := 0x7000

/-- Modelled from the spec: `log.Ldebug`, the maximal-verbosity level of the
external logging facility (distinct from the suppression level). -/
def Ldebug : Nat := 0

/-- Modelled from the spec: `cl.NewPackage` (the lowering component lives in
this repository outside the reviewed sources).  Invoked on the result of
`pkgs["main"]`; per the spec, an absent `main` package is a fatal condition,
so the `nil` argument yields the missing-main error, otherwise the lowering
oracle decides. -/
def clNewPackage (env : Env) : Option Pkg → Except String Artifact
  | none => .error "MissingMainError"
  | some p => env.lower p

/-- Model of Go `os.MkdirAll` per the spec: recursive and idempotent —
succeeds without change when the directory already exists, otherwise either
fails (injected by the oracle, e.g. permission denied) or records the whole
ancestor chain of the directory. -/
def mkdirAll (env : Env) (fs : FS) (dir : String) : Except String FS :=
  if fs.dirs.contains dir then .ok fs
  else
    match env.mkdirFail dir with
    | some e => .error e
    | none => .ok ⟨ancestorsOf dir ++ fs.dirs, fs.files⟩

/-- Effect of a successful serializer write on the filesystem: the file now
holds the artifact (overwriting any previous content). -/
def writeApply (fs : FS) (path : String) (a : Artifact) : FS :=
  ⟨fs.dirs, (path, a) :: fs.files.filter (fun p => p.1 != path)⟩

/-- Model of `gox.WriteFile`: the external serializer either fails (injected
by the oracle, e.g. disk full) or writes the artifact. -/
def writeFile (env : Env) (fs : FS) (path : String) (a : Artifact) : Except String FS :=
  match env.writeFail path with
  | some e => .error e
  | none => .ok (writeApply fs path a)

/-- `saveGoFile` from `run.go`: create the parent directory of `gofile` with
`os.MkdirAll`, then — only if that succeeded — serialize the package there.
Returns the emitted events, the error if any, and the resulting filesystem. -/
def saveGoFile (env : Env) (fs : FS) (gofile : String) (pkg : Artifact) :
    List Event × Option String × FS :=
  let dir := filepathDir gofile
  match mkdirAll env fs dir with
  | .error e => ([Event.mkdirEv dir], some e, fs)
  | .ok fs1 =>
    match writeFile env fs1 gofile pkg with
    | .error e => ([Event.mkdirEv dir, Event.writeEv gofile], some e, fs1)
    | .ok fs2 => ([Event.mkdirEv dir, Event.writeEv gofile], none, fs2)

/-- `IsDir` from `run.go`: stat the target; directories report `true`, files
`false`, anything not on the filesystem is a stat error. -/
def IsDir (fs : FS) (target : String) : Except String Bool :=
  if fs.dirs.contains target then .ok true
  else if fs.files.any (fun p => p.1 == target) then .ok false
  else .error "no such file or directory"

/-- `goRun` from `run.go`: invoke `go run` on the artifact with the working
directory set to the artifact's containing directory (`filepath.Split`),
inheriting environment and standard streams. -/
def goRun (env : Env) (target : String) : RunResult :=
  env.run (filepathSplit target).1 target

/-- Where `runCmd` places the generated file: directories get
`<target>/gop_autogen.go` by string concatenation, single files get
`filepath.Join(dir, ".gop", file + ".go")` for `dir, file := filepath.Split(target)`. -/
def outputLocation (isDir : Bool) (target : String) : String :=
  if isDir then target ++ "/gop_autogen.go"
  else
    let df := filepathSplit target
    filepathJoin [df.1, ".gop", df.2 ++ ".go"]

/-- Events of the verbosity block at the top of `runCmd`: `-quiet` sets the
suppression level, otherwise `-debug` sets the debug level and additionally
switches the lowering component to full tracing (`gox.SetDebug(gox.DbgFlagAll)`). -/
def logEvents (fl : Flags) : List Event :=
  if fl.quiet then [Event.setLogLevel suppressLevel]
  else if fl.debug then [Event.setLogLevel Ldebug, Event.goxSetDebug]
  else []

/-- Which external parser entry point the target kind selects. -/
def parseStage (env : Env) (isDir : Bool) (target : String) : Except String SourceSet :=
  if isDir then env.parseDir target else env.parseFile target

/-- The parse event the target kind produces. -/
def parseEvent (isDir : Bool) (target : String) : Event :=
  if isDir then Event.parseDirEv target else Event.parseFileEv target

/-- The body of `runCmd` after the verbosity block, translated statement by
statement from `run.go`: the `-prof` panic, `filepath.Abs` with its error
discarded, the `IsDir` check, the parse, `cl.NewPackage`, the `-asm` panic,
the output-location computation, `saveGoFile`, and `goRun` with its error
classification (an `*exec.ExitError` streams the child's stderr and falls
through to the dead second `-prof` check; any other error is fatal). -/
def runPipeline (fl : Flags) (arg0 : String) (env : Env) (fs : FS) : RunOut :=
  if fl.prof then ⟨[], .unsupported "TODO: profile not impl", fs⟩
  else
    let target := (env.absPath arg0).1
    match IsDir fs target with
    | .error e => ⟨[], .fatal ("input arg check failed: " ++ e), fs⟩
    | .ok isDir =>
      match parseStage env isDir target with
      | .error e => ⟨[parseEvent isDir target], .fatal ("parser.Parse failed: " ++ e), fs⟩
      | .ok pkgs =>
        match clNewPackage env (sourceSetLookup pkgs "main") with
        | .error e =>
          ⟨[parseEvent isDir target, Event.lowerEv], .fatal ("cl.NewPackage failed: " ++ e), fs⟩
        | .ok out =>
          if fl.asm then
            ⟨[parseEvent isDir target, Event.lowerEv], .unsupported "TODO: gop run -asm not impl", fs⟩
          else
            let gofile := outputLocation isDir target
            match saveGoFile env fs gofile out with
            | (sev, some e, fs1) =>
              ⟨[parseEvent isDir target, Event.lowerEv] ++ sev,
                .fatal ("saveGoFile failed: " ++ e), fs1⟩
            | (sev, none, fs1) =>
              match goRun env gofile with
              | .exitError bs =>
                ⟨[parseEvent isDir target, Event.lowerEv] ++ sev
                    ++ [Event.execEv gofile, Event.stderrWrite bs],
                  if fl.prof then .unsupported "TODO: profile not impl" else .ok, fs1⟩
              | .otherError e =>
                ⟨[parseEvent isDir target, Event.lowerEv] ++ sev ++ [Event.execEv gofile],
                  .fatal ("go run failed: " ++ e), fs1⟩
              | .ok =>
                ⟨[parseEvent isDir target, Event.lowerEv] ++ sev ++ [Event.execEv gofile],
                  if fl.prof then .unsupported "TODO: profile not impl" else .ok, fs1⟩

/-- `runCmd` from `run.go`.  `args` holds the positional arguments left after
flag parsing (`flag.NArg`/`flag.Arg`).  With no positional argument the
command prints its usage; `base.Command.Usage` lives in this repository
outside the reviewed sources and is modelled from the spec: it prints the
usage text and the command returns without error.  Otherwise the verbosity
block runs and the pipeline follows. -/
def runCmd (fl : Flags) (args : List String) (env : Env) (fs : FS) : RunOut :=
  if args.length < 1 then ⟨[Event.printUsage], .usageReturn, fs⟩
  else
    let r := runPipeline fl (args.headD "") env fs
    ⟨logEvents fl ++ r.events, r.outcome, r.fs⟩

/-- The artifact-placement rule in the words of the specification: a
directory target gets the generated filename joined directly onto the target
directory; a file target gets the hidden build directory `.gop` under the
file's parent directory, holding the original filename suffixed with `.go`. -/
def outputLocationSpec (isDir : Bool) (target : String) : String :=
  if isDir then filepathJoin [target, "gop_autogen.go"]
  else filepathJoin [filepathDir target, ".gop", (filepathSplit target).2 ++ ".go"]

/-! ### Path lemmas -/

/-- No two adjacent slashes in a character list. -/
def noDupSlash : List Char → Bool
  | [] => true
  | [_] => true
  | a :: b :: rest => !(a == '/' && b == '/') && noDupSlash (b :: rest)

theorem collapse_of_noDupSlash : ∀ l, noDupSlash l = true → collapse l = l
  | [], _ => rfl
  | [_], _ => rfl
  | a :: b :: rest, h => by
    simp only [noDupSlash, Bool.and_eq_true, Bool.not_eq_true'] at h
    simp only [collapse]
    rw [if_neg (by simp [h.1]), collapse_of_noDupSlash (b :: rest) h.2]

theorem collapse_dup : ∀ a b : List Char, collapse (a ++ '/' :: '/' :: b) = collapse (a ++ '/' :: b)
  | [], _ => by simp [collapse]
  | [x], b => by
    simp only [List.cons_append, List.nil_append, collapse]
    rcases hx : x == '/' <;> simp [hx, collapse]
  | x :: y :: rest, b => by
    have ih := collapse_dup (y :: rest) b
    simp only [List.cons_append] at ih ⊢
    simp only [collapse]
    rw [ih]

theorem noDupSlash_append : ∀ a b : List Char, noDupSlash a = true → noDupSlash b = true →
    ¬(a.getLast? = some '/' ∧ b.head? = some '/') → noDupSlash (a ++ b) = true
  | [], b, _, hb, _ => hb
  | [x], b, _, hb, hj => by
    cases b with
    | nil => rfl
    | cons c bs =>
      simp only [List.getLast?_singleton, List.head?_cons, Option.some.injEq, not_and] at hj
      simp only [List.singleton_append, noDupSlash, Bool.and_eq_true, Bool.not_eq_true']
      refine ⟨?_, hb⟩
      rcases hx : x == '/' with _ | _
      · simp [hx]
      · have hx' : x = '/' := by simpa using hx
        have hc : ¬ c = '/' := fun hc' => hj hx' (by simp [hc'])
        simp [hx, hc]
  | x :: y :: rest, b, ha, hb, hj => by
    simp only [noDupSlash, Bool.and_eq_true] at ha
    have hj' : ¬((y :: rest).getLast? = some '/' ∧ b.head? = some '/') := by
      intro hcontra
      exact hj ⟨by rw [List.getLast?_cons_cons]; exact hcontra.1, hcontra.2⟩
    have ih := noDupSlash_append (y :: rest) b ha.2 hb hj'
    simp only [List.cons_append] at ih ⊢
    simp only [noDupSlash, Bool.and_eq_true]
    exact ⟨ha.1, ih⟩

theorem noDupSlash_of_slashFree : ∀ l : List Char, l.all (· != '/') = true → noDupSlash l = true
  | [], _ => rfl
  | [_], _ => rfl
  | a :: b :: rest, h => by
    simp only [List.all_cons, Bool.and_eq_true] at h
    simp only [noDupSlash, Bool.and_eq_true, Bool.not_eq_true']
    refine ⟨?_, noDupSlash_of_slashFree (b :: rest) (by simp [h.2.1, h.2.2])⟩
    have := h.1
    simp only [bne_iff_ne, ne_eq] at this
    simp [this]

theorem slashFree_head {l : List Char} (h : l.all (· != '/') = true) : l.head? ≠ some '/' := by
  cases l with
  | nil => simp
  | cons c rest =>
    simp only [List.all_cons, Bool.and_eq_true, bne_iff_ne, ne_eq] at h
    simp [h.1]

theorem slashFree_getLast {l : List Char} (h : l.all (· != '/') = true) :
    l.getLast? ≠ some '/' := by
  rw [← List.head?_reverse]
  exact slashFree_head (by simpa using h)

theorem string_eq_of_data {a b : String} (h : a.data = b.data) : a = b :=
  congrArg String.mk h

theorem takeWhile_slashFree_append (a r : List Char) (h : a.all (· != '/') = true) :
    (a ++ '/' :: r).takeWhile (· != '/') = a := by
  induction a with
  | nil => simp [List.takeWhile_cons]
  | cons c cs ih =>
    simp only [List.all_cons, Bool.and_eq_true] at h
    simp [List.takeWhile_cons, h.1, ih h.2]

theorem dropWhile_slashFree_append (a r : List Char) (h : a.all (· != '/') = true) :
    (a ++ '/' :: r).dropWhile (· != '/') = '/' :: r := by
  induction a with
  | nil => simp [List.dropWhile_cons]
  | cons c cs ih =>
    simp only [List.all_cons, Bool.and_eq_true] at h
    simp [List.dropWhile_cons, h.1, ih h.2]

theorem splitLastSlash_append (p n : List Char) (hn : n.all (· != '/') = true) :
    splitLastSlash (p ++ '/' :: n) = (p ++ ['/'], n) := by
  have hrev : (p ++ '/' :: n).reverse = n.reverse ++ '/' :: p.reverse := by simp
  have hnrev : n.reverse.all (· != '/') = true := by simpa using hn
  simp only [splitLastSlash, hrev, takeWhile_slashFree_append _ _ hnrev,
    dropWhile_slashFree_append _ _ hnrev]
  simp

theorem dropTrailingSlashes_concat (p : List Char) (hp : p.getLast? ≠ some '/') :
    dropTrailingSlashes (p ++ ['/']) = p := by
  have h1 : (p ++ ['/']).reverse = '/' :: p.reverse := by simp
  have h2 : p.reverse.dropWhile (· == '/') = p.reverse := by
    cases hrev : p.reverse with
    | nil => simp
    | cons c cs =>
      have hc : ¬ c = '/' := by
        rw [← List.head?_reverse, hrev] at hp
        simpa using hp
      simp [List.dropWhile_cons, hc]
  simp only [dropTrailingSlashes, h1, List.dropWhile_cons]
  simp [h2]

theorem data_concat (p n : String) : (p ++ "/" ++ n).data = p.data ++ '/' :: n.data := by
  simp [String.data_append]

theorem filepathSplit_concat (p n : String) (hn : n.data.all (· != '/') = true) :
    filepathSplit (p ++ "/" ++ n) = (p ++ "/", n) := by
  simp only [filepathSplit, data_concat, splitLastSlash_append _ _ hn]
  refine Prod.ext ?_ ?_
  · exact string_eq_of_data (by simp [String.data_append])
  · rfl

theorem filepathDir_concat (p n : String) (hp : p.data ≠ [])
    (hlast : p.data.getLast? ≠ some '/') (hn : n.data.all (· != '/') = true) :
    filepathDir (p ++ "/" ++ n) = p := by
  simp only [filepathDir, data_concat, splitLastSlash_append _ _ hn,
    dropTrailingSlashes_concat _ hlast]
  rw [if_neg (by simpa [List.isEmpty_iff] using hp)]

theorem append_mem_ancestorsAux : ∀ (l acc : List Char), acc ++ l ≠ [] →
    (acc ++ l).getLast? ≠ some '/' → (acc ++ l) ∈ ancestorsAux acc l
  | [], acc, hne, _ => by
    simp only [List.append_nil] at hne ⊢
    simp only [ancestorsAux]
    rw [if_neg (by simpa [List.isEmpty_iff] using hne)]
    simp
  | c :: rest, acc, _, hlast => by
    have hassoc : (acc ++ [c]) ++ rest = acc ++ c :: rest := by simp
    have ih := append_mem_ancestorsAux rest (acc ++ [c])
      (by rw [hassoc]; simp) (by rw [hassoc]; exact hlast)
    rw [hassoc] at ih
    simp only [ancestorsAux]
    cases hc : c == '/' with
    | false => rw [if_neg (by simp [hc])]; exact ih
    | true => rw [if_pos (by simp [hc])]; exact List.mem_append_right _ ih

theorem self_mem_ancestorsOf (dir : String) (hne : dir.data ≠ [])
    (hlast : dir.data.getLast? ≠ some '/') : dir ∈ ancestorsOf dir := by
  have h := append_mem_ancestorsAux dir.data [] (by simpa using hne) (by simpa using hlast)
  simp only [List.nil_append] at h
  exact List.mem_map.mpr ⟨dir.data, h, rfl⟩

theorem filepathJoin_two (a b : String) (ha : a.data ≠ []) (hb : b.data ≠ []) :
    filepathJoin [a, b] = ⟨collapse (a.data ++ '/' :: b.data)⟩ := by
  have hfa : (!a.data.isEmpty) = true := by simpa [List.isEmpty_iff] using ha
  have hfb : (!b.data.isEmpty) = true := by simpa [List.isEmpty_iff] using hb
  simp only [filepathJoin, List.filter_cons, hfa, hfb, if_pos, List.filter_nil]
  congr 1
  have hjs : joinSlash [a, b] = a ++ "/" ++ b := rfl
  rw [hjs, data_concat]

theorem filepathJoin_three (a b c : String) (ha : a.data ≠ []) (hb : b.data ≠ [])
    (hc : c.data ≠ []) :
    filepathJoin [a, b, c] = ⟨collapse (a.data ++ '/' :: (b.data ++ '/' :: c.data))⟩ := by
  have hfa : (!a.data.isEmpty) = true := by simpa [List.isEmpty_iff] using ha
  have hfb : (!b.data.isEmpty) = true := by simpa [List.isEmpty_iff] using hb
  have hfc : (!c.data.isEmpty) = true := by simpa [List.isEmpty_iff] using hc
  simp only [filepathJoin, List.filter_cons, hfa, hfb, hfc, if_pos, List.filter_nil]
  congr 1
  have hjs : joinSlash [a, b, c] = a ++ "/" ++ (b ++ "/" ++ c) := rfl
  rw [hjs, data_concat, data_concat]

/-- Claim C4: for every resolved target, the artifact location is computed
deterministically from the target exactly as the specification's placement
rule states it: a directory target yields the fixed generated filename joined
directly onto the target directory, and a file target yields the hidden
`.gop` build subdirectory of the file's parent directory joined with the
original filename suffixed `.go`.  The target is quantified as
`parent ++ "/" ++ name` with the usual cleanliness of a resolved absolute
path (nonempty slash-free filename, nonempty parent without duplicated or
trailing slashes), which is what `filepath.Abs` returns. -/
theorem c4_output_location (parent name : String)
    (hpne : parent.data ≠ [])
    (hplast : parent.data.getLast? ≠ some '/')
    (hpdup : noDupSlash parent.data = true)
    (hnne : name.data ≠ [])
    (hn : name.data.all (· != '/') = true) :
    outputLocation true (parent ++ "/" ++ name) =
      outputLocationSpec true (parent ++ "/" ++ name) ∧
    outputLocation false (parent ++ "/" ++ name) =
      outputLocationSpec false (parent ++ "/" ++ name) := by
  have hndup := noDupSlash_of_slashFree _ hn
  constructor
  · -- directory target: concatenation agrees with the cleaned join
    have htne : (parent ++ "/" ++ name).data ≠ [] := by
      rw [data_concat]; simp
    have hgne : ("gop_autogen.go" : String).data ≠ [] := by decide
    rw [show outputLocation true (parent ++ "/" ++ name) =
        (parent ++ "/" ++ name) ++ "/gop_autogen.go" from rfl,
      show outputLocationSpec true (parent ++ "/" ++ name) =
        filepathJoin [parent ++ "/" ++ name, "gop_autogen.go"] from rfl,
      filepathJoin_two _ _ htne hgne]
    apply string_eq_of_data
    have h1 : noDupSlash (name.data ++ '/' :: ("gop_autogen.go" : String).data) = true := by
      refine noDupSlash_append _ _ hndup (by decide) ?_
      intro hc
      exact slashFree_getLast hn hc.1
    have hhead1 : (name.data ++ '/' :: ("gop_autogen.go" : String).data).head? ≠ some '/' := by
      cases hnd : name.data with
      | nil => exact absurd hnd hnne
      | cons c cs =>
        have hc : (c != '/') = true := by
          rw [hnd] at hn
          simp only [List.all_cons, Bool.and_eq_true] at hn
          exact hn.1
        simp only [List.cons_append, List.head?_cons]
        simpa using hc
    have h2 : noDupSlash ('/' :: (name.data ++ '/' :: ("gop_autogen.go" : String).data)) = true := by
      have := noDupSlash_append ['/'] (name.data ++ '/' :: ("gop_autogen.go" : String).data)
        rfl h1 (fun hc => hhead1 hc.2)
      simpa using this
    have h3 : noDupSlash
        ((parent ++ "/" ++ name).data ++ '/' :: ("gop_autogen.go" : String).data) = true := by
      rw [data_concat, List.append_assoc, List.cons_append]
      exact noDupSlash_append _ _ hpdup h2 (fun hc => hplast hc.1)
    rw [collapse_of_noDupSlash _ h3]
    rw [show ((parent ++ "/" ++ name) ++ "/gop_autogen.go").data =
        (parent ++ "/" ++ name).data ++ ("/gop_autogen.go" : String).data from
      String.data_append _ _]
  · -- file target: the split-based code path agrees with the parent-based rule
    have hdfile : filepathSplit (parent ++ "/" ++ name) = (parent ++ "/", name) :=
      filepathSplit_concat parent name hn
    have hddir : filepathDir (parent ++ "/" ++ name) = parent :=
      filepathDir_concat parent name hpne hplast hn
    have hslashne : (parent ++ "/").data ≠ [] := by
      rw [String.data_append]; simp
    have hgopne : (".gop" : String).data ≠ [] := by decide
    have hngone : (name ++ ".go").data ≠ [] := by
      rw [String.data_append]
      cases name.data <;> simp
    rw [show outputLocation false (parent ++ "/" ++ name) =
        filepathJoin [(filepathSplit (parent ++ "/" ++ name)).1, ".gop",
          (filepathSplit (parent ++ "/" ++ name)).2 ++ ".go"] from rfl,
      show outputLocationSpec false (parent ++ "/" ++ name) =
        filepathJoin [filepathDir (parent ++ "/" ++ name), ".gop",
          (filepathSplit (parent ++ "/" ++ name)).2 ++ ".go"] from rfl,
      hdfile, hddir]
    simp only
    rw [filepathJoin_three _ _ _ hslashne hgopne hngone,
      filepathJoin_three _ _ _ hpne hgopne hngone]
    apply string_eq_of_data
    simp only
    have hngoall : (name ++ ".go").data.all (· != '/') = true := by
      rw [String.data_append]
      simp only [List.all_append, Bool.and_eq_true]
      exact ⟨hn, by decide⟩
    have n1 : noDupSlash ('/' :: (name ++ ".go").data) = true := by
      have := noDupSlash_append ['/'] (name ++ ".go").data rfl
        (noDupSlash_of_slashFree _ hngoall)
        (fun hc => slashFree_head hngoall hc.2)
      simpa using this
    have n2 : noDupSlash ((".gop" : String).data ++ '/' :: (name ++ ".go").data) = true := by
      refine noDupSlash_append _ _ (by decide) n1 ?_
      intro hc
      have : ((".gop" : String).data).getLast? = some 'p' := by decide
      rw [this] at hc
      simpa using hc.1
    have n3 : noDupSlash
        ('/' :: ((".gop" : String).data ++ '/' :: (name ++ ".go").data)) = true := by
      have hh : ((".gop" : String).data ++ '/' :: (name ++ ".go").data).head? = some '.' := rfl
      have := noDupSlash_append ['/'] ((".gop" : String).data ++ '/' :: (name ++ ".go").data)
        rfl n2 (fun hc => by rw [hh] at hc; simpa using hc.2)
      simpa using this
    have n4 : noDupSlash
        (parent.data ++ '/' :: ((".gop" : String).data ++ '/' :: (name ++ ".go").data)) = true :=
      noDupSlash_append _ _ hpdup n3 (fun hc => hplast hc.1)
    have hlhs : (parent ++ "/").data ++ '/' :: ((".gop" : String).data ++ '/' :: (name ++ ".go").data)
        = parent.data ++ '/' :: '/' :: ((".gop" : String).data ++ '/' :: (name ++ ".go").data) := by
      rw [String.data_append]
      simp
    rw [hlhs, collapse_dup, collapse_of_noDupSlash _ n4]

/-! ### Event classification and driver-level helper lemmas -/

/-- Log-configuration events (the verbosity block). -/
def isLogConfigEvent : Event → Bool
  | .setLogLevel _ => true
  | .goxSetDebug => true
  | _ => false

/-- Events of the source-acquisition stage. -/
def isParseEvent : Event → Bool
  | .parseDirEv _ => true
  | .parseFileEv _ => true
  | _ => false

/-- Events of the write and execute stages (filesystem-touching or
subprocess-invoking). -/
def isWriteOrExecEvent : Event → Bool
  | .mkdirEv _ => true
  | .writeEv _ => true
  | .execEv _ => true
  | _ => false

/-- Events of any pipeline stage (parse, lower, write, execute). -/
def isStageEvent : Event → Bool
  | .parseDirEv _ => true
  | .parseFileEv _ => true
  | .lowerEv => true
  | .mkdirEv _ => true
  | .writeEv _ => true
  | .execEv _ => true
  | .stderrWrite _ => true
  | _ => false

/-- A request of the debug log level. -/
def setsDebugLevel : Event → Bool
  | .setLogLevel n => n == Ldebug
  | _ => false

theorem any_false_of_all {l : List Event} {p q : Event → Bool}
    (h : l.all q = true) (himp : ∀ e, q e = true → p e = false) : l.any p = false := by
  rw [List.all_eq_true] at h
  rw [List.any_eq_false]
  intro x hx hpx
  have hfalse := himp x (h x hx)
  rw [hfalse] at hpx
  exact absurd hpx (by simp)

theorem logEvents_all_log (fl : Flags) : ((logEvents fl).all isLogConfigEvent) = true := by
  unfold logEvents
  split
  · rfl
  · split <;> rfl

theorem saveGoFile_events_stage (env : Env) (fs : FS) (gofile : String) (pkg : Artifact) :
    ((saveGoFile env fs gofile pkg).1.all isStageEvent) = true := by
  rcases hm : mkdirAll env fs (filepathDir gofile) with e | fs1
  · simp only [saveGoFile, hm]
    rfl
  · rcases hw : writeFile env fs1 gofile pkg with e | fs2 <;> simp only [saveGoFile, hm, hw] <;> rfl

theorem isStageEvent_parseEvent (b : Bool) (t : String) : isStageEvent (parseEvent b t) = true := by
  cases b <;> rfl

theorem runPipeline_events_stage (fl : Flags) (arg0 : String) (env : Env) (fs : FS) :
    ((runPipeline fl arg0 env fs).events.all isStageEvent) = true := by
  simp only [runPipeline]
  split
  · rfl
  · rcases hI : IsDir fs ((env.absPath arg0).1) with e | isDir <;> simp only [hI]
    · rfl
    · rcases hP : parseStage env isDir ((env.absPath arg0).1) with e | pkgs <;> simp only [hP]
      · cases isDir <;> rfl
      · rcases hC : clNewPackage env (sourceSetLookup pkgs "main") with e | out <;> simp only [hC]
        · cases isDir <;> rfl
        · split
          · cases isDir <;> rfl
          · rcases hS : saveGoFile env fs (outputLocation isDir ((env.absPath arg0).1)) out with
              ⟨sev, oerr, fs1⟩
            have hsv := saveGoFile_events_stage env fs
              (outputLocation isDir ((env.absPath arg0).1)) out
            rw [hS] at hsv
            simp only at hsv
            rcases oerr with _ | e
            · simp only [hS]
              rcases hR : goRun env (outputLocation isDir ((env.absPath arg0).1)) with
                bs | e | _ <;> simp only [hR] <;>
                cases isDir <;> simp [List.all_append, hsv, isStageEvent, parseEvent]
            · simp only [hS]
              cases isDir <;> simp [List.all_append, hsv, isStageEvent, parseEvent]

theorem runCmd_cons (fl : Flags) (a0 : String) (as : List String) (env : Env) (fs : FS) :
    runCmd fl (a0 :: as) env fs =
      ⟨logEvents fl ++ (runPipeline fl a0 env fs).events,
        (runPipeline fl a0 env fs).outcome, (runPipeline fl a0 env fs).fs⟩ := by
  simp [runCmd]

theorem runPipeline_events_no_log (fl : Flags) (arg0 : String) (env : Env) (fs : FS) :
    ((runPipeline fl arg0 env fs).events.any isLogConfigEvent) = false :=
  any_false_of_all (runPipeline_events_stage fl arg0 env fs)
    (fun e he => by cases e <;> simp_all [isStageEvent, isLogConfigEvent])

/-- A concrete environment in which every external collaborator succeeds:
path resolution is the identity, both parser entry points return a source set
with a `main` package, lowering succeeds, no filesystem failure is injected,
and the toolchain subprocess exits cleanly. -/
def sampleEnv : Env where
  absPath := fun s => (s, none)
  parseDir := fun _ => .ok [("main", 1)]
  parseFile := fun _ => .ok [("main", 1)]
  lower := fun _ => .ok 7
  mkdirFail := fun _ => none
  writeFail := fun _ => none
  run := fun _ _ => .ok

/-- A concrete filesystem holding the directory `/a` and the source file
`/a/f.gop`. -/
def sampleFS : FS := ⟨["/a"], [("/a/f.gop", 3)]⟩

/-! ### The claims -/

/-- Claim C8 (spec-modelled `Usage`): invoked with no positional target
argument, the run command prints the command usage and returns without error;
no parsing, lowering, writing, or execution happens and the filesystem is
untouched. -/
theorem c8_usage (fl : Flags) (env : Env) (fs : FS) :
    runCmd fl [] env fs = ⟨[Event.printUsage], Outcome.usageReturn, fs⟩ := by
  simp [runCmd]

/-- Claim C9: the error component of the absolute-path resolution step is
discarded — two environments that agree on everything except the error
returned by `filepath.Abs` produce identical runs, so path-resolution errors
never fail the pipeline; existence is checked only afterwards by the
stat-based `IsDir` step, which consumes just the resolved path value. -/
theorem c9_abs_error_discarded (fl : Flags) (args : List String) (fs : FS)
    (v : String → String) (e1 e2 : String → Option String)
    (pd pf : String → Except String SourceSet) (lw : Pkg → Except String Artifact)
    (mk wf : String → Option String) (rn : String → String → RunResult) :
    runCmd fl args ⟨fun s => (v s, e1 s), pd, pf, lw, mk, wf, rn⟩ fs =
      runCmd fl args ⟨fun s => (v s, e2 s), pd, pf, lw, mk, wf, rn⟩ fs := by
  cases args with
  | nil => rfl
  | cons a0 as =>
    rw [runCmd_cons, runCmd_cons]
    have hpipe : runPipeline fl a0 ⟨fun s => (v s, e1 s), pd, pf, lw, mk, wf, rn⟩ fs =
        runPipeline fl a0 ⟨fun s => (v s, e2 s), pd, pf, lw, mk, wf, rn⟩ fs := by
      simp only [runPipeline, parseStage, clNewPackage, saveGoFile, goRun, mkdirAll, writeFile]
    rw [hpipe]

/-- Claim C10: whenever `-quiet` is set, the lowering component's maximal
debug tracing (`gox.SetDebug(gox.DbgFlagAll)`) is never requested, whatever
the `-debug` flag says: the quiet branch is taken first and the debug branch
— the only site of the tracing request — is skipped. -/
theorem c10_quiet_no_gox_debug (fl : Flags) (args : List String) (env : Env) (fs : FS)
    (hq : fl.quiet = true) :
    Event.goxSetDebug ∉ (runCmd fl args env fs).events := by
  cases args with
  | nil =>
    intro hmem
    simp [runCmd] at hmem
  | cons a0 as =>
    rw [runCmd_cons]
    intro hmem
    rcases List.mem_append.mp hmem with h | h
    · rw [logEvents, if_pos hq] at h
      simp at h
    · have hnl := runPipeline_events_no_log fl a0 env fs
      rw [List.any_eq_false] at hnl
      exact hnl _ h rfl

/-- Claim C7: with both `-quiet` and `-debug` set, quiet wins: the very first
action of the run is setting the suppression log level `0x7000`, and the
debug log level is never requested anywhere in the run. -/
theorem c7_quiet_precedence (fl : Flags) (a0 : String) (as : List String) (env : Env) (fs : FS)
    (hq : fl.quiet = true) (_hd : fl.debug = true) :
    (runCmd fl (a0 :: as) env fs).events.head? = some (Event.setLogLevel suppressLevel) ∧
    ((runCmd fl (a0 :: as) env fs).events.any setsDebugLevel) = false := by
  rw [runCmd_cons]
  constructor
  · simp [logEvents, hq]
  · simp only [List.any_append, Bool.or_eq_false_iff]
    constructor
    · rw [logEvents, if_pos hq]
      simp [setsDebugLevel, suppressLevel, Ldebug]
    · exact any_false_of_all (runPipeline_events_stage fl a0 env fs)
        (fun e he => by cases e <;> simp_all [isStageEvent, setsDebugLevel])

/-- Witness for C7 at concrete flags with both quiet and debug set. -/
theorem c7_witness :
    (runCmd ⟨false, true, true, false⟩ ["/a"] sampleEnv sampleFS).events.head? =
      some (Event.setLogLevel suppressLevel) ∧
    ((runCmd ⟨false, true, true, false⟩ ["/a"] sampleEnv sampleFS).events.any setsDebugLevel)
      = false :=
  c7_quiet_precedence ⟨false, true, true, false⟩ "/a" [] sampleEnv sampleFS rfl rfl

/-- Witness for C10 at concrete flags with quiet and debug both set. -/
theorem c10_witness :
    Event.goxSetDebug ∉ (runCmd ⟨false, true, true, false⟩ ["/a"] sampleEnv sampleFS).events :=
  c10_quiet_no_gox_debug ⟨false, true, true, false⟩ ["/a"] sampleEnv sampleFS rfl

theorem logEvents_any_false (fl : Flags) (p : Event → Bool)
    (himp : ∀ e, isLogConfigEvent e = true → p e = false) : ((logEvents fl).any p) = false :=
  any_false_of_all (logEvents_all_log fl) himp

/-- Claim C1 as amended: `-prof` fails with the unsupported-feature panic
immediately, before any of the parse, lower, write, or execute stages and
with zero filesystem writes; `-asm` (without `-prof`) also fails with the
unsupported-feature panic and zero filesystem writes, but only after the
parse and lower stages have run — before write and execute. -/
theorem c1_asm_prof_unsupported (fl : Flags) (a0 : String) (as : List String)
    (env : Env) (fs : FS) :
    (fl.prof = true →
      (runCmd fl (a0 :: as) env fs).outcome = .unsupported "TODO: profile not impl" ∧
      ((runCmd fl (a0 :: as) env fs).events.any isStageEvent) = false ∧
      (runCmd fl (a0 :: as) env fs).fs = fs) ∧
    (∀ isDir ss art, fl.asm = true → fl.prof = false →
      IsDir fs ((env.absPath a0).1) = .ok isDir →
      parseStage env isDir ((env.absPath a0).1) = .ok ss →
      clNewPackage env (sourceSetLookup ss "main") = .ok art →
      (runCmd fl (a0 :: as) env fs).outcome = .unsupported "TODO: gop run -asm not impl" ∧
      ((runCmd fl (a0 :: as) env fs).events.any isWriteOrExecEvent) = false ∧
      (runCmd fl (a0 :: as) env fs).fs = fs) := by
  constructor
  · intro hp
    rw [runCmd_cons]
    have hrp : runPipeline fl a0 env fs = ⟨[], .unsupported "TODO: profile not impl", fs⟩ := by
      unfold runPipeline
      rw [if_pos hp]
    rw [hrp]
    refine ⟨rfl, ?_, rfl⟩
    show ((logEvents fl ++ []).any isStageEvent) = false
    rw [List.append_nil]
    exact logEvents_any_false fl isStageEvent
      (fun e he => by cases e <;> simp_all [isLogConfigEvent, isStageEvent])
  · intro isDir ss art hasm hprof hstat hparse hlower
    rw [runCmd_cons]
    have hrp : runPipeline fl a0 env fs =
        ⟨[parseEvent isDir ((env.absPath a0).1), Event.lowerEv],
          .unsupported "TODO: gop run -asm not impl", fs⟩ := by
      unfold runPipeline
      rw [if_neg (by simp [hprof])]
      simp only [hstat, hparse, hlower, hasm, eq_self_iff_true, if_true]
    rw [hrp]
    refine ⟨rfl, ?_, rfl⟩
    show ((logEvents fl ++ [parseEvent isDir ((env.absPath a0).1), Event.lowerEv]).any
      isWriteOrExecEvent) = false
    rw [List.any_append]
    refine (Bool.or_eq_false_iff).mpr ⟨?_, ?_⟩
    · exact logEvents_any_false fl isWriteOrExecEvent
        (fun e he => by cases e <;> simp_all [isLogConfigEvent, isWriteOrExecEvent])
    · cases isDir <;> rfl

/-- Counterexample to claim C1 as stated: with `-asm` and the valid directory
target `/a`, the pipeline records the parse and lower stage events before the
unsupported-feature failure, so the failure does not happen before the parse
and lower stages are attempted. -/
theorem c1_counterexample :
    (runCmd ⟨true, false, false, false⟩ ["/a"] sampleEnv sampleFS).outcome =
      .unsupported "TODO: gop run -asm not impl" ∧
    ((runCmd ⟨true, false, false, false⟩ ["/a"] sampleEnv sampleFS).events.any isParseEvent)
      = true ∧
    Event.lowerEv ∈ (runCmd ⟨true, false, false, false⟩ ["/a"] sampleEnv sampleFS).events := by
  refine ⟨rfl, rfl, ?_⟩
  decide

/-- Witness for C1 (amended): at concrete inputs, `-prof` aborts unsupported
with no stage event, and `-asm` on the valid target `/a` aborts unsupported
with no write or execute event. -/
theorem c1_witness :
    ((runCmd ⟨false, false, false, true⟩ ["/a"] sampleEnv sampleFS).outcome =
        .unsupported "TODO: profile not impl" ∧
      ((runCmd ⟨false, false, false, true⟩ ["/a"] sampleEnv sampleFS).events.any isStageEvent)
        = false ∧
      (runCmd ⟨false, false, false, true⟩ ["/a"] sampleEnv sampleFS).fs = sampleFS) ∧
    ((runCmd ⟨true, false, false, false⟩ ["/a"] sampleEnv sampleFS).outcome =
        .unsupported "TODO: gop run -asm not impl" ∧
      ((runCmd ⟨true, false, false, false⟩ ["/a"] sampleEnv sampleFS).events.any
        isWriteOrExecEvent) = false ∧
      (runCmd ⟨true, false, false, false⟩ ["/a"] sampleEnv sampleFS).fs = sampleFS) :=
  ⟨(c1_asm_prof_unsupported ⟨false, false, false, true⟩ "/a" [] sampleEnv sampleFS).1 rfl,
    (c1_asm_prof_unsupported ⟨true, false, false, false⟩ "/a" [] sampleEnv sampleFS).2
      true [("main", 1)] 7 rfl rfl rfl rfl rfl⟩

/-- Claim C6: a target path that does not exist on the filesystem (so the
stat fails) makes the pipeline fail fatally with the path error before any
parse is attempted, leaving the filesystem untouched; the check runs on the
absolute form produced by the path-resolution step. -/
theorem c6_path_error (fl : Flags) (a0 : String) (as : List String) (env : Env) (fs : FS)
    (e : String) (hprof : fl.prof = false)
    (hstat : IsDir fs ((env.absPath a0).1) = .error e) :
    (runCmd fl (a0 :: as) env fs).outcome = .fatal ("input arg check failed: " ++ e) ∧
    ((runCmd fl (a0 :: as) env fs).events.any isParseEvent) = false ∧
    (runCmd fl (a0 :: as) env fs).fs = fs := by
  rw [runCmd_cons]
  have hrp : runPipeline fl a0 env fs = ⟨[], .fatal ("input arg check failed: " ++ e), fs⟩ := by
    unfold runPipeline
    rw [if_neg (by simp [hprof])]
    simp only [hstat]
  rw [hrp]
  refine ⟨rfl, ?_, rfl⟩
  show ((logEvents fl ++ []).any isParseEvent) = false
  rw [List.append_nil]
  exact logEvents_any_false fl isParseEvent
    (fun ev he => by cases ev <;> simp_all [isLogConfigEvent, isParseEvent])

/-- Witness for C6 at the nonexistent concrete target `/nope`. -/
theorem c6_witness :
    (runCmd ⟨false, false, false, false⟩ ["/nope"] sampleEnv sampleFS).outcome =
      .fatal ("input arg check failed: " ++ "no such file or directory") ∧
    ((runCmd ⟨false, false, false, false⟩ ["/nope"] sampleEnv sampleFS).events.any isParseEvent)
      = false ∧
    (runCmd ⟨false, false, false, false⟩ ["/nope"] sampleEnv sampleFS).fs = sampleFS :=
  c6_path_error ⟨false, false, false, false⟩ "/nope" [] sampleEnv sampleFS
    "no such file or directory" rfl rfl

/-- Claim C2 (spec-modelled lowering): when the parsed source set holds no
package named `main`, the pipeline fails fatally with the missing-main error
and performs no directory creation, no artifact write, and no execution; the
filesystem is untouched. -/
theorem c2_missing_main (fl : Flags) (a0 : String) (as : List String) (env : Env) (fs : FS)
    (isDir : Bool) (ss : SourceSet) (hprof : fl.prof = false)
    (hstat : IsDir fs ((env.absPath a0).1) = .ok isDir)
    (hparse : parseStage env isDir ((env.absPath a0).1) = .ok ss)
    (hmain : sourceSetLookup ss "main" = none) :
    (runCmd fl (a0 :: as) env fs).outcome =
      .fatal ("cl.NewPackage failed: " ++ "MissingMainError") ∧
    ((runCmd fl (a0 :: as) env fs).events.any isWriteOrExecEvent) = false ∧
    (runCmd fl (a0 :: as) env fs).fs = fs := by
  rw [runCmd_cons]
  have hrp : runPipeline fl a0 env fs =
      ⟨[parseEvent isDir ((env.absPath a0).1), Event.lowerEv],
        .fatal ("cl.NewPackage failed: " ++ "MissingMainError"), fs⟩ := by
    unfold runPipeline
    rw [if_neg (by simp [hprof])]
    simp only [hstat, hparse, hmain, clNewPackage]
  rw [hrp]
  refine ⟨rfl, ?_, rfl⟩
  show ((logEvents fl ++ [parseEvent isDir ((env.absPath a0).1), Event.lowerEv]).any
    isWriteOrExecEvent) = false
  rw [List.any_append]
  refine (Bool.or_eq_false_iff).mpr ⟨?_, ?_⟩
  · exact logEvents_any_false fl isWriteOrExecEvent
      (fun ev he => by cases ev <;> simp_all [isLogConfigEvent, isWriteOrExecEvent])
  · cases isDir <;> rfl

/-- Witness for C2: a concrete environment whose parser returns only a
`lib` package. -/
theorem c2_witness :
    (runCmd ⟨false, false, false, false⟩ ["/a"]
        ⟨fun s => (s, none), fun _ => .ok [("lib", 1)], fun _ => .ok [("lib", 1)],
          fun _ => .ok 7, fun _ => none, fun _ => none, fun _ _ => .ok⟩ sampleFS).outcome =
      .fatal ("cl.NewPackage failed: " ++ "MissingMainError") ∧
    ((runCmd ⟨false, false, false, false⟩ ["/a"]
        ⟨fun s => (s, none), fun _ => .ok [("lib", 1)], fun _ => .ok [("lib", 1)],
          fun _ => .ok 7, fun _ => none, fun _ => none, fun _ _ => .ok⟩ sampleFS).events.any
      isWriteOrExecEvent) = false ∧
    (runCmd ⟨false, false, false, false⟩ ["/a"]
        ⟨fun s => (s, none), fun _ => .ok [("lib", 1)], fun _ => .ok [("lib", 1)],
          fun _ => .ok 7, fun _ => none, fun _ => none, fun _ _ => .ok⟩ sampleFS).fs =
      sampleFS :=
  c2_missing_main ⟨false, false, false, false⟩ "/a" []
    ⟨fun s => (s, none), fun _ => .ok [("lib", 1)], fun _ => .ok [("lib", 1)],
      fun _ => .ok 7, fun _ => none, fun _ => none, fun _ _ => .ok⟩ sampleFS
    true [("lib", 1)] rfl rfl rfl rfl

/-- Witness for C4 at the concrete target `/a/f.gop`. -/
theorem c4_witness :
    outputLocation true ("/a" ++ "/" ++ "f.gop") =
      outputLocationSpec true ("/a" ++ "/" ++ "f.gop") ∧
    outputLocation false ("/a" ++ "/" ++ "f.gop") =
      outputLocationSpec false ("/a" ++ "/" ++ "f.gop") :=
  c4_output_location "/a" "f.gop" (by decide) (by decide) (by decide) (by decide) (by decide)

/-- Claim C3: once the pipeline reaches the execution delegate (all earlier
stages succeeded), a child process that ran and exited non-zero has its
attached stderr bytes written to the invoking process's error stream and the
run completes normally, with no pipeline failure reported; any other failure
of the run operation is fatal with the underlying message. -/
theorem c3_execution_classification (fl : Flags) (a0 : String) (as : List String) (env : Env)
    (fs : FS) (isDir : Bool) (ss : SourceSet) (art : Artifact)
    (hprof : fl.prof = false) (hasm : fl.asm = false)
    (hstat : IsDir fs ((env.absPath a0).1) = .ok isDir)
    (hparse : parseStage env isDir ((env.absPath a0).1) = .ok ss)
    (hlower : clNewPackage env (sourceSetLookup ss "main") = .ok art)
    (hmk : env.mkdirFail (filepathDir (outputLocation isDir ((env.absPath a0).1))) = none)
    (hwr : env.writeFail (outputLocation isDir ((env.absPath a0).1)) = none) :
    (∀ bs, goRun env (outputLocation isDir ((env.absPath a0).1)) = .exitError bs →
      (runCmd fl (a0 :: as) env fs).outcome = .ok ∧
      Event.stderrWrite bs ∈ (runCmd fl (a0 :: as) env fs).events) ∧
    (∀ m, goRun env (outputLocation isDir ((env.absPath a0).1)) = .otherError m →
      (runCmd fl (a0 :: as) env fs).outcome = .fatal ("go run failed: " ++ m)) := by
  obtain ⟨fs2, hsave⟩ : ∃ fs2,
      saveGoFile env fs (outputLocation isDir ((env.absPath a0).1)) art =
        ([Event.mkdirEv (filepathDir (outputLocation isDir ((env.absPath a0).1))),
          Event.writeEv (outputLocation isDir ((env.absPath a0).1))], none, fs2) := by
    cases hc : fs.dirs.contains (filepathDir (outputLocation isDir ((env.absPath a0).1))) with
    | false =>
      refine ⟨writeApply
        ⟨ancestorsOf (filepathDir (outputLocation isDir ((env.absPath a0).1))) ++ fs.dirs,
          fs.files⟩ (outputLocation isDir ((env.absPath a0).1)) art, ?_⟩
      have hc2 : filepathDir (outputLocation isDir ((env.absPath a0).1)) ∉ fs.dirs := by
        simpa using hc
      simp [saveGoFile, mkdirAll, hc2, hmk, writeFile, hwr]
    | true =>
      refine ⟨writeApply fs (outputLocation isDir ((env.absPath a0).1)) art, ?_⟩
      have hc2 : filepathDir (outputLocation isDir ((env.absPath a0).1)) ∈ fs.dirs := by
        simpa using hc
      simp [saveGoFile, mkdirAll, hc2, writeFile, hwr]
  constructor
  · intro bs hrun
    have hrp : runPipeline fl a0 env fs =
        ⟨[parseEvent isDir ((env.absPath a0).1), Event.lowerEv] ++
            [Event.mkdirEv (filepathDir (outputLocation isDir ((env.absPath a0).1))),
              Event.writeEv (outputLocation isDir ((env.absPath a0).1))] ++
            [Event.execEv (outputLocation isDir ((env.absPath a0).1)), Event.stderrWrite bs],
          .ok, fs2⟩ := by
      unfold runPipeline
      rw [if_neg (by simp [hprof])]
      simp only [hstat, hparse, hlower, hasm, Bool.false_eq_true, if_false, hsave, hrun, hprof]
    rw [runCmd_cons, hrp]
    exact ⟨rfl, by simp⟩
  · intro m hrun
    have hrp : runPipeline fl a0 env fs =
        ⟨[parseEvent isDir ((env.absPath a0).1), Event.lowerEv] ++
            [Event.mkdirEv (filepathDir (outputLocation isDir ((env.absPath a0).1))),
              Event.writeEv (outputLocation isDir ((env.absPath a0).1))] ++
            [Event.execEv (outputLocation isDir ((env.absPath a0).1))],
          .fatal ("go run failed: " ++ m), fs2⟩ := by
      unfold runPipeline
      rw [if_neg (by simp [hprof])]
      simp only [hstat, hparse, hlower, hasm, Bool.false_eq_true, if_false, hsave, hrun]
    rw [runCmd_cons, hrp]

/-- A concrete environment whose toolchain subprocess exits non-zero with
stderr bytes `boom`. -/
def exitEnv : Env where
  absPath := fun s => (s, none)
  parseDir := fun _ => .ok [("main", 1)]
  parseFile := fun _ => .ok [("main", 1)]
  lower := fun _ => .ok 7
  mkdirFail := fun _ => none
  writeFail := fun _ => none
  run := fun _ _ => .exitError "boom"

/-- Witness for C3: on the valid directory target `/a` with a child process
that exits non-zero carrying stderr `boom`, the run completes normally and
the stderr bytes are relayed. -/
theorem c3_witness :
    (runCmd ⟨false, false, false, false⟩ ["/a"] exitEnv sampleFS).outcome = .ok ∧
    Event.stderrWrite "boom" ∈
      (runCmd ⟨false, false, false, false⟩ ["/a"] exitEnv sampleFS).events :=
  (c3_execution_classification ⟨false, false, false, false⟩ "/a" [] exitEnv sampleFS
    true [("main", 1)] 7 rfl rfl rfl rfl rfl rfl rfl).1 "boom" rfl

/-- An artifact-write event. -/
def isWriteEvent : Event → Bool
  | .writeEv _ => true
  | _ => false

/-- Claim C5: before every artifact write the parent directory tree of the
output location is created recursively (the whole ancestor chain, the
directory itself included) and idempotently (an existing directory is a
silent success leaving the filesystem unchanged); on success the directory
creation event strictly precedes the write event, and if directory creation
fails, no write is attempted, the filesystem is untouched, and the run is
fatal. -/
theorem c5_artifact_write (env : Env) (fs : FS) (gofile : String) (art : Artifact) :
    (filepathDir gofile ∈ fs.dirs → mkdirAll env fs (filepathDir gofile) = .ok fs) ∧
    (filepathDir gofile ∉ fs.dirs → env.mkdirFail (filepathDir gofile) = none →
      mkdirAll env fs (filepathDir gofile) =
        .ok ⟨ancestorsOf (filepathDir gofile) ++ fs.dirs, fs.files⟩) ∧
    ((filepathDir gofile).data ≠ [] → (filepathDir gofile).data.getLast? ≠ some '/' →
      filepathDir gofile ∈ ancestorsOf (filepathDir gofile)) ∧
    (∀ e, mkdirAll env fs (filepathDir gofile) = .error e →
      saveGoFile env fs gofile art = ([Event.mkdirEv (filepathDir gofile)], some e, fs)) ∧
    (∀ fs1, mkdirAll env fs (filepathDir gofile) = .ok fs1 → env.writeFail gofile = none →
      saveGoFile env fs gofile art =
        ([Event.mkdirEv (filepathDir gofile), Event.writeEv gofile], none,
          writeApply fs1 gofile art)) ∧
    (∀ fl a0 as isDir ss e, fl.prof = false → fl.asm = false →
      IsDir fs ((env.absPath a0).1) = .ok isDir →
      parseStage env isDir ((env.absPath a0).1) = .ok (ss : SourceSet) →
      clNewPackage env (sourceSetLookup ss "main") = .ok art →
      gofile = outputLocation isDir ((env.absPath a0).1) →
      mkdirAll env fs (filepathDir gofile) = .error e →
      (runCmd fl (a0 :: as) env fs).outcome = .fatal ("saveGoFile failed: " ++ e) ∧
      ((runCmd fl (a0 :: as) env fs).events.any isWriteEvent) = false ∧
      (runCmd fl (a0 :: as) env fs).fs = fs) := by
  refine ⟨?_, ?_, ?_, ?_, ?_, ?_⟩
  · intro h
    simp [mkdirAll, h]
  · intro h hf
    simp [mkdirAll, h, hf]
  · intro h1 h2
    exact self_mem_ancestorsOf _ h1 h2
  · intro e hm
    simp [saveGoFile, hm]
  · intro fs1 hm hwf
    simp [saveGoFile, hm, writeFile, hwf]
  · intro fl a0 as isDir ss e hprof hasm hstat hparse hlower hloc hm
    have hsf : saveGoFile env fs gofile art =
        ([Event.mkdirEv (filepathDir gofile)], some e, fs) := by
      simp [saveGoFile, hm]
    subst hloc
    rw [runCmd_cons]
    have hrp : runPipeline fl a0 env fs =
        ⟨[parseEvent isDir ((env.absPath a0).1), Event.lowerEv] ++
            [Event.mkdirEv (filepathDir (outputLocation isDir ((env.absPath a0).1)))],
          .fatal ("saveGoFile failed: " ++ e), fs⟩ := by
      unfold runPipeline
      rw [if_neg (by simp [hprof])]
      simp only [hstat, hparse, hlower, hasm, Bool.false_eq_true, if_false, hsf]
    rw [hrp]
    refine ⟨rfl, ?_, rfl⟩
    show ((logEvents fl ++ ([parseEvent isDir ((env.absPath a0).1), Event.lowerEv] ++
      [Event.mkdirEv (filepathDir (outputLocation isDir ((env.absPath a0).1)))])).any
        isWriteEvent) = false
    rw [List.any_append]
    refine (Bool.or_eq_false_iff).mpr ⟨?_, ?_⟩
    · exact logEvents_any_false fl isWriteEvent
        (fun ev he => by cases ev <;> simp_all [isLogConfigEvent, isWriteEvent])
    · cases isDir <;> rfl

/-- A concrete environment in which directory creation always fails with a
permission error. -/
def failEnv : Env where
  absPath := fun s => (s, none)
  parseDir := fun _ => .ok [("main", 1)]
  parseFile := fun _ => .ok [("main", 1)]
  lower := fun _ => .ok 7
  mkdirFail := fun _ => some "permission denied"
  writeFail := fun _ => none
  run := fun _ _ => .ok

/-- Witness for C5: idempotent creation of the already-existing `/a`, a
full mkdir-then-write success there, and — with injected mkdir failure on
the single-file target `/a/f.gop` — a fatal run with no write attempted. -/
theorem c5_witness :
    (mkdirAll sampleEnv sampleFS (filepathDir "/a/gop_autogen.go") = .ok sampleFS) ∧
    (saveGoFile sampleEnv sampleFS "/a/gop_autogen.go" 7 =
      ([Event.mkdirEv (filepathDir "/a/gop_autogen.go"), Event.writeEv "/a/gop_autogen.go"],
        none, writeApply sampleFS "/a/gop_autogen.go" 7)) ∧
    ((runCmd ⟨false, false, false, false⟩ ["/a/f.gop"] failEnv sampleFS).outcome =
      .fatal ("saveGoFile failed: " ++ "permission denied") ∧
    ((runCmd ⟨false, false, false, false⟩ ["/a/f.gop"] failEnv sampleFS).events.any
      isWriteEvent) = false ∧
    (runCmd ⟨false, false, false, false⟩ ["/a/f.gop"] failEnv sampleFS).fs = sampleFS) :=
  ⟨(c5_artifact_write sampleEnv sampleFS "/a/gop_autogen.go" 7).1 (by decide),
    (c5_artifact_write sampleEnv sampleFS "/a/gop_autogen.go" 7).2.2.2.2.1 sampleFS
      ((c5_artifact_write sampleEnv sampleFS "/a/gop_autogen.go" 7).1 (by decide)) rfl,
    (c5_artifact_write failEnv sampleFS (outputLocation false "/a/f.gop") 7).2.2.2.2.2
      ⟨false, false, false, false⟩ "/a/f.gop" [] false [("main", 1)] "permission denied"
      rfl rfl rfl rfl rfl rfl rfl⟩
